import Mathlib

/-!
Verification of the dxf-editor session state machine and highlight
compositor, shallowly embedded from the TypeScript source.

The hook `useDxf` (src/frontend/src/hooks/useDxf.ts) is modelled as a
record `HookState` of its React state cells plus the `sessionIdRef`.
Each action of the hook is an async function whose remote calls either
resolve or reject; we model every action as a pure function from the
state and the outcomes of its remote calls (as `Except String _`,
errors carrying the message that the catch block stores) to the state
after the action has run to completion.  `setXxx` sequences inside one
action are collapsed to the net record update the completed action
leaves behind.

The highlight compositor lives in src/frontend/src/App.tsx and is
embedded as the pure functions `selectedHandles`, `highlightedHandles`,
`handleHoverPart` and `handleTogglePartSelection`.
-/

set_option linter.unusedVariables false

namespace DxfEditor

/-- `AppState` union type of src/frontend/src/types.ts. -/
inductive AppState
  | initial
  | loading
  | ready
  | previewing
  | executing
  | error
deriving DecidableEq, Repr

/-- `LayerInfo` of types.ts. -/
structure LayerInfo where
  name : String
  color : Int
  color_name : String
  entity_count : Nat
deriving DecidableEq, Repr

/-- `ColorInfo` of types.ts. -/
structure ColorInfo where
  aci : Int
  name : String
  hex : String
  count : Nat
deriving DecidableEq, Repr

/-- `DxfInfo` of types.ts. -/
structure DxfInfo where
  session_id : String
  filename : String
  entity_count : Nat
  layers : List LayerInfo
  colors_used : List ColorInfo
deriving DecidableEq, Repr

/-- `OperationCommand` of types.ts.  `params : Record<string, unknown>`
is modelled as an association list of opaque string values (no claim
inspects a parameter value); `confidence : number` as a rational. -/
structure OperationCommand where
  operation : String
  params : List (String × String)
  confidence : Rat
  explanation : String
deriving DecidableEq, Repr

/-- `OperationResult` of types.ts; `preview_svg?: string` is an
`Option String` (`none` = the field is absent). -/
structure OperationResult where
  success : Bool
  affected_count : Nat
  message : String
  preview_svg : Option String
deriving DecidableEq, Repr

/-- `PartInfo` of types.ts; the optional `linked_handles?: string[]`
is an `Option (List String)`. -/
structure PartInfo where
  part_name : String
  text_handle : String
  linked_count : Nat
  confidence : Rat
  linked_handles : Option (List String)
deriving DecidableEq, Repr

/-- `InterpretResponse` of types.ts. -/
structure InterpretResponse where
  success : Bool
  commands : List OperationCommand
  message : String
  used_ai : Bool
deriving DecidableEq, Repr

/-- The state cells of `useDxf` (useDxf.ts lines 29-38): the eight
`useState` cells plus `sessionIdRef`. -/
structure HookState where
  state : AppState
  dxfInfo : Option DxfInfo
  parts : List PartInfo
  svg : String
  originalSvg : String
  pendingCommand : Option OperationCommand
  operationHistory : List OperationResult
  error : Option String
  sessionId : Option String
deriving DecidableEq, Repr

/-- The initial values of the state cells. -/
def initState : HookState :=
  { state := .initial, dxfInfo := none, parts := [], svg := "",
    originalSvg := "", pendingCommand := none, operationHistory := [],
    error := none, sessionId := none }

/-- JavaScript truthiness of the optional string `result.preview_svg`:
an absent field and the empty string are falsy. -/
def svgTruthy : Option String → Bool
  | some s => s ≠ ""
  | none => false

/-- JavaScript `o || d` for the optional string `o`. -/
def jsOr (o : Option String) (d : String) : String :=
  match o with
  | some s => if s = "" then d else s
  | none => d

/-- `uploadFile` (useDxf.ts lines 49-73).  `uploadRes` is the outcome of
`api.uploadDxf`, `previewRes` of the subsequent `api.getPreview`.  Note
the source stores `sessionIdRef.current = info.session_id` (line 56)
before awaiting the initial preview, so a preview failure still leaves
the session id set.  The fire-and-forget `api.analyzeParts` resolution
is a separate `Step` of the transition system. -/
def uploadFile (s : HookState) (uploadRes : Except String DxfInfo)
    (previewRes : Except String String) : HookState :=
  match uploadRes with
  | .error e => { s with state := .error, error := some e }
  | .ok info =>
    match previewRes with
    | .error e =>
        { s with dxfInfo := some info, sessionId := some info.session_id,
                 state := .error, error := some e }
    | .ok v =>
        { s with dxfInfo := some info, sessionId := some info.session_id,
                 svg := v, originalSvg := v, state := .ready, error := none }

/-- `previewOperation` (useDxf.ts lines 112-135).  `res` is the outcome
of `api.previewOperation`.  On failure (lines 131-134) the catch block
sets the error and returns the state to `ready` but does NOT clear
`pendingCommand`, which was set on line 115. -/
def previewOperation (s : HookState) (command : OperationCommand)
    (res : Except String OperationResult) : HookState :=
  match s.sessionId with
  | none => s
  | some _ =>
    match res with
    | .ok r =>
        { s with pendingCommand := some command, state := .previewing,
                 svg := if svgTruthy r.preview_svg then jsOr r.preview_svg "" else s.svg,
                 error := some (toString r.affected_count ++ "個のエンティティが影響を受けます") }
    | .error e =>
        { s with pendingCommand := some command, state := .ready, error := some e }

/-- `interpretCommand` (useDxf.ts lines 75-110).  `interpretRes` is the
outcome of `api.interpretCommand`; when a command is staged the source
awaits `previewOperation(command)` (line 105), whose own outcome is
`previewRes` (that inner call catches its own failures, so the outer
catch only sees interpretation failures).  `text` and `selectedParts`
only feed the remote request and do not affect the local state. -/
def interpretCommand (s : HookState) (text : String)
    (selectedParts : List String)
    (interpretRes : Except String InterpretResponse)
    (previewRes : Except String OperationResult) : HookState :=
  match s.sessionId with
  | none => { s with error := some "ファイルが読み込まれていません" }
  | some _ =>
    match interpretRes with
    | .error e => { s with state := .ready, error := some e }
    | .ok r =>
      match r.commands, r.success with
      | c :: _, true =>
          previewOperation
            { s with state := .loading, error := none, pendingCommand := some c }
            c previewRes
      | _, _ => { s with state := .ready, error := some r.message }

/-- `executeOperation` (useDxf.ts lines 137-162).  Guard on line 138:
without a session id and a pending command nothing happens.  On failure
(lines 158-161) the catch block sets the error and state but does NOT
clear `pendingCommand`; it is cleared only on the success path
(line 155). -/
def executeOperation (s : HookState)
    (res : Except String OperationResult) : HookState :=
  match s.sessionId, s.pendingCommand with
  | some _, some _ =>
    match res with
    | .ok r =>
        { s with state := .ready,
                 svg := if svgTruthy r.preview_svg then jsOr r.preview_svg "" else s.svg,
                 operationHistory := s.operationHistory ++ [r],
                 pendingCommand := none, error := none }
    | .error e => { s with state := .ready, error := some e }
  | _, _ => s

/-- The remote calls one `executeOperation` invocation issues: exactly
the single `api.executeOperation` POST of line 144 when the guard on
line 138 passes, none otherwise. -/
inductive RemoteCall
  | commit (operation : String) (params : List (String × String))
deriving DecidableEq, Repr

/-- Remote calls issued by one `executeOperation` invocation. -/
def executeOperationRemoteCalls (s : HookState) : List RemoteCall :=
  match s.sessionId, s.pendingCommand with
  | some _, some c => [.commit c.operation c.params]
  | _, _ => []

/-- `cancelOperation` (useDxf.ts lines 164-179).  `res` is the outcome
of the restoring `api.getPreview` call; its failure is swallowed
(lines 174-176) and the view left as-is. -/
def cancelOperation (s : HookState) (res : Except String String) : HookState :=
  match s.sessionId with
  | none => s
  | some _ =>
    match res with
    | .ok v =>
        { s with pendingCommand := none, error := none, svg := v, state := .ready }
    | .error _ =>
        { s with pendingCommand := none, error := none, state := .ready }

/-- `undo` (useDxf.ts lines 188-201); `res` is the outcome of
`api.undo`.  On success the view becomes `result.preview_svg || ''`
(line 193). -/
def undo (s : HookState) (res : Except String OperationResult) : HookState :=
  match s.sessionId with
  | none => s
  | some _ =>
    match res with
    | .ok r =>
        { s with svg := jsOr r.preview_svg "",
                 operationHistory := s.operationHistory ++ [r],
                 error := some "元に戻しました", state := .ready }
    | .error e => { s with error := some e, state := .ready }

/-- `redo` (useDxf.ts lines 203-216), identical to `undo` up to the
endpoint and the message. -/
def redo (s : HookState) (res : Except String OperationResult) : HookState :=
  match s.sessionId with
  | none => s
  | some _ =>
    match res with
    | .ok r =>
        { s with svg := jsOr r.preview_svg "",
                 operationHistory := s.operationHistory ++ [r],
                 error := some "やり直しました", state := .ready }
    | .error e => { s with error := some e, state := .ready }

/-- `reset` (useDxf.ts lines 218-231).  The remote
`api.deleteSession` outcome is ignored (`.catch(() => {})`, line 220);
the local cells of lines 223-230 are cleared unconditionally.  The
source never calls `setOriginalSvg`, so `originalSvg` survives. -/
def reset (s : HookState) (deleteRes : Except String Unit) : HookState :=
  { s with sessionId := none, dxfInfo := none, parts := [], svg := "",
           pendingCommand := none, operationHistory := [], error := none,
           state := .initial }

/-- One user/network event applied to the hook state: an action of the
hook invoked with some outcome of its remote calls, or the
fire-and-forget part analysis of uploadFile (line 64-66) resolving with
a part list. -/
inductive Step : HookState → HookState → Prop
  | upload (s : HookState) (u : Except String DxfInfo) (p : Except String String) :
      Step s (uploadFile s u p)
  | interpret (s : HookState) (text : String) (sel : List String)
      (ir : Except String InterpretResponse) (pr : Except String OperationResult) :
      Step s (interpretCommand s text sel ir pr)
  | preview (s : HookState) (c : OperationCommand) (r : Except String OperationResult) :
      Step s (previewOperation s c r)
  | execute (s : HookState) (r : Except String OperationResult) :
      Step s (executeOperation s r)
  | cancel (s : HookState) (r : Except String String) :
      Step s (cancelOperation s r)
  | undoStep (s : HookState) (r : Except String OperationResult) :
      Step s (undo s r)
  | redoStep (s : HookState) (r : Except String OperationResult) :
      Step s (redo s r)
  | resetStep (s : HookState) (r : Except String Unit) :
      Step s (reset s r)
  | analyzeResolves (s : HookState) (ps : List PartInfo) :
      Step s { s with parts := ps }

/-- A hook state the client can reach from its initial state. -/
def Reachable (s : HookState) : Prop :=
  Relation.ReflTransGen Step initState s

/-!  The highlight compositor and selection model of App.tsx.  -/

/-- `parts.find(p => p.part_name === partName)` (App.tsx lines 41, 66). -/
def findPart (parts : List PartInfo) (partName : String) : Option PartInfo :=
  parts.find? (fun p => p.part_name == partName)

/-- The handles one found part pushes (App.tsx lines 43-46): its
`text_handle` then its `linked_handles` when present.  (In the source
`if (part.linked_handles)` skips only an absent array; an empty array
is truthy and spreads nothing, which coincides with `getD []`.) -/
def partHandles (p : PartInfo) : List String :=
  p.text_handle :: p.linked_handles.getD []

/-- The `selectedHandles` accumulation of the highlight effect
(App.tsx lines 39-48): for every selected part name in order, look the
part up by exact name and push its handles; an absent name contributes
nothing. -/
def selectedHandles (selectedParts : List String) (parts : List PartInfo) : List String :=
  selectedParts.foldl
    (fun acc partName =>
      match findPart parts partName with
      | some p => acc ++ partHandles p
      | none => acc) []

/-- `[...new Set(xs)]` (App.tsx line 51): deduplication keeping the
first occurrence of each element, in order. -/
def dedupe (xs : List String) : List String :=
  xs.foldl (fun acc x => if x ∈ acc then acc else acc ++ [x]) []

/-- The highlight set (App.tsx lines 38-53): the deduplicated
concatenation of the selected parts' handles and the hover handles. -/
def highlightedHandles (selectedParts hoverHandles : List String)
    (parts : List PartInfo) : List String :=
  dedupe (selectedHandles selectedParts parts ++ hoverHandles)

/-- `handleHoverPart` (App.tsx lines 65-73): overwrite the hover
handles with the hovered part's handles; when the name is absent from
the part list neither branch fires and the hover handles are left
unchanged. -/
def handleHoverPart (parts : List PartInfo) (hoverHandles : List String)
    (partName : String) : List String :=
  match findPart parts partName with
  | some p =>
    match p.linked_handles with
    | some ls => p.text_handle :: ls
    | none => [p.text_handle]
  | none => hoverHandles

/-- `handleTogglePartSelection` (App.tsx lines 88-94). -/
def handleTogglePartSelection (prev : List String) (partName : String) : List String :=
  if partName ∈ prev then prev.filter (fun p => p != partName)
  else prev ++ [partName]

/-!  Concrete data used by witnesses and counterexamples.  -/

/-- A concrete upload response. -/
def demoInfo : DxfInfo :=
  { session_id := "sess-1", filename := "plan.dxf", entity_count := 3,
    layers := [], colors_used := [] }

/-- A concrete interpreted command. -/
def demoCommand : OperationCommand :=
  { operation := "delete_by_color", params := [("color", "yellow")],
    confidence := 1, explanation := "delete the yellow lines" }

/-- A concrete successful preview response. -/
def demoPreviewResult : OperationResult :=
  { success := true, affected_count := 12, message := "ok",
    preview_svg := some "svg-preview" }

/-- The state after a successful upload of `demoInfo` with initial
view "svg-0". -/
def readyState : HookState :=
  uploadFile initState (Except.ok demoInfo) (Except.ok "svg-0")

/-- The state after a preview of `demoCommand` whose remote call
failed. -/
def failedPreviewState : HookState :=
  previewOperation readyState demoCommand (Except.error "network down")

/-- The state after a successful preview of `demoCommand`. -/
def previewingState : HookState :=
  previewOperation readyState demoCommand (Except.ok demoPreviewResult)

/-- A sequence of previews applied one after the other, each with its
own remote outcome. -/
def applyPreviews (s : HookState)
    (previews : List (OperationCommand × Except String OperationResult)) : HookState :=
  previews.foldl (fun t cr => previewOperation t cr.1 cr.2) s

/-!  Helper lemmas.  -/

lemma applyPreviews_cons (s : HookState) (cr : OperationCommand × Except String OperationResult)
    (rest : List (OperationCommand × Except String OperationResult)) :
    applyPreviews s (cr :: rest) = applyPreviews (previewOperation s cr.1 cr.2) rest := rfl

lemma mem_dedupe_foldl (xs : List String) (acc : List String) (x : String) :
    x ∈ xs.foldl (fun acc y => if y ∈ acc then acc else acc ++ [y]) acc ↔
      x ∈ acc ∨ x ∈ xs := by
  induction xs generalizing acc with
  | nil => simp
  | cons y ys ih =>
    simp only [List.foldl_cons, ih, List.mem_cons]
    by_cases hy : y ∈ acc
    · simp only [if_pos hy]
      constructor
      · tauto
      · rintro (h | rfl | h) <;> tauto
    · simp only [if_neg hy, List.mem_append, List.mem_singleton]
      tauto

lemma nodup_dedupe_foldl (xs : List String) (acc : List String) (hacc : acc.Nodup) :
    (xs.foldl (fun acc y => if y ∈ acc then acc else acc ++ [y]) acc).Nodup := by
  induction xs generalizing acc with
  | nil => simpa
  | cons y ys ih =>
    simp only [List.foldl_cons]
    apply ih
    by_cases hy : y ∈ acc
    · simpa [hy]
    · simp [hy, List.nodup_append, hacc]

lemma mem_dedupe (xs : List String) (x : String) : x ∈ dedupe xs ↔ x ∈ xs := by
  simpa [dedupe] using mem_dedupe_foldl xs [] x

lemma nodup_dedupe (xs : List String) : (dedupe xs).Nodup :=
  nodup_dedupe_foldl xs [] List.nodup_nil

lemma selectedHandles_foldl (parts : List PartInfo) (sel : List String) (acc : List String) :
    sel.foldl
        (fun acc partName =>
          match findPart parts partName with
          | some p => acc ++ partHandles p
          | none => acc) acc
      = acc ++ sel.flatMap
          (fun partName =>
            match findPart parts partName with
            | some p => partHandles p
            | none => []) := by
  induction sel generalizing acc with
  | nil => simp
  | cons n ns ih =>
    simp only [List.foldl_cons, List.flatMap_cons, ih]
    cases h : findPart parts n <;> simp [h, List.append_assoc]

lemma selectedHandles_eq_bind (sel : List String) (parts : List PartInfo) :
    selectedHandles sel parts
      = sel.flatMap
          (fun partName =>
            match findPart parts partName with
            | some p => partHandles p
            | none => []) := by
  simpa [selectedHandles] using selectedHandles_foldl parts sel []

lemma mem_selectedHandles (sel : List String) (parts : List PartInfo) (x : String) :
    x ∈ selectedHandles sel parts ↔
      ∃ n ∈ sel, ∃ p, findPart parts n = some p ∧ x ∈ partHandles p := by
  rw [selectedHandles_eq_bind]
  simp only [List.mem_flatMap]
  constructor
  · rintro ⟨n, hn, hx⟩
    refine ⟨n, hn, ?_⟩
    cases h : findPart parts n with
    | none => rw [h] at hx; simp at hx
    | some p => rw [h] at hx; exact ⟨p, rfl, hx⟩
  · rintro ⟨n, hn, p, hp, hx⟩
    refine ⟨n, hn, ?_⟩
    rw [hp]
    exact hx

lemma previewOperation_sessionId (s : HookState) (c : OperationCommand)
    (r : Except String OperationResult) :
    (previewOperation s c r).sessionId = s.sessionId := by
  cases h : s.sessionId <;> cases r <;> simp [previewOperation, h]

lemma applyPreviews_sessionId
    (previews : List (OperationCommand × Except String OperationResult))
    (s : HookState) :
    (applyPreviews s previews).sessionId = s.sessionId := by
  induction previews generalizing s with
  | nil => rfl
  | cons cr rest ih => rw [applyPreviews_cons, ih, previewOperation_sessionId]

lemma previewOperation_pending_inv (s : HookState) (c : OperationCommand)
    (r : Except String OperationResult)
    (ih : s.state = AppState.previewing → s.pendingCommand ≠ none) :
    (previewOperation s c r).state = AppState.previewing →
      (previewOperation s c r).pendingCommand ≠ none := by
  cases h : s.sessionId <;> cases r <;> simp [previewOperation, h] <;> exact ih

lemma step_pending_previewing {s t : HookState} (hst : Step s t)
    (ih : s.state = AppState.previewing → s.pendingCommand ≠ none) :
    t.state = AppState.previewing → t.pendingCommand ≠ none := by
  cases hst with
  | upload u p =>
    cases u with
    | error e => simp [uploadFile]
    | ok info => cases p <;> simp [uploadFile]
  | interpret text sel ir pr =>
    cases h : s.sessionId with
    | none =>
      simp only [interpretCommand, h]
      exact ih
    | some sid =>
      cases ir with
      | error e => simp [interpretCommand, h]
      | ok r =>
        cases hc : r.commands with
        | nil => simp [interpretCommand, h, hc]
        | cons c rest =>
          cases hs : r.success
          · simp [interpretCommand, h, hc, hs]
          · simp only [interpretCommand, h, hc, hs]
            exact previewOperation_pending_inv _ c pr (by simp)
  | preview c r => exact previewOperation_pending_inv s c r ih
  | execute r =>
    cases h1 : s.sessionId with
    | none =>
      simp only [executeOperation, h1]
      exact ih
    | some sid =>
      cases h2 : s.pendingCommand with
      | none =>
        have hid : executeOperation s r = s := by simp [executeOperation, h1, h2]
        rw [hid]
        exact ih
      | some c => cases r <;> simp [executeOperation, h1, h2]
  | cancel r =>
    cases h : s.sessionId with
    | none =>
      simp only [cancelOperation, h]
      exact ih
    | some sid => cases r <;> simp [cancelOperation, h]
  | undoStep r =>
    cases h : s.sessionId with
    | none =>
      simp only [undo, h]
      exact ih
    | some sid => cases r <;> simp [undo, h]
  | redoStep r =>
    cases h : s.sessionId with
    | none =>
      simp only [redo, h]
      exact ih
    | some sid => cases r <;> simp [redo, h]
  | resetStep r => simp [reset]
  | analyzeResolves ps =>
    simp only
    exact ih

lemma reachable_pending_previewing {s : HookState} (h : Reachable s) :
    s.state = AppState.previewing → s.pendingCommand ≠ none := by
  unfold Reachable at h
  induction h with
  | refl =>
    intro hs
    simp [initState] at hs
  | tail _ hbc ih => exact step_pending_previewing hbc ih

/-!  The claims.  -/

/-- C1 counterexample: after a successful upload and a preview whose
remote call failed, the client is reachable in state `ready` with the
pending command still staged — refuting "the pending command is
non-null only while the session state is 'previewing', and it is null
in every other state". -/
theorem C1_pending_nonnull_outside_previewing_counterexample :
    Reachable failedPreviewState ∧
    failedPreviewState.state = AppState.ready ∧
    failedPreviewState.pendingCommand = some demoCommand := by
  refine ⟨?_, rfl, rfl⟩
  exact Relation.ReflTransGen.tail
    (Relation.ReflTransGen.tail Relation.ReflTransGen.refl
      (Step.upload initState (Except.ok demoInfo) (Except.ok "svg-0")))
    (Step.preview readyState demoCommand (Except.error "network down"))

/-- C1 amended: in every reachable state the pending command is
non-null whenever the session state is `previewing`, and it is cleared
by a successful commit and by cancel; but after a failed preview the
pending command remains staged while the state is `ready`, so a
non-null pending command does not imply state `previewing`. -/
theorem C1_pending_command_amended :
    (∀ s : HookState, Reachable s →
        s.state = AppState.previewing → s.pendingCommand ≠ none) ∧
    (∀ (s : HookState) (sid : String) (c : OperationCommand) (r : OperationResult),
        s.sessionId = some sid → s.pendingCommand = some c →
        (executeOperation s (Except.ok r)).pendingCommand = none) ∧
    (∀ (s : HookState) (sid : String) (r : Except String String),
        s.sessionId = some sid →
        (cancelOperation s r).pendingCommand = none) ∧
    (∀ (s : HookState) (sid : String) (c : OperationCommand) (e : String),
        s.sessionId = some sid →
        (previewOperation s c (Except.error e)).state = AppState.ready ∧
        (previewOperation s c (Except.error e)).pendingCommand = some c) := by
  refine ⟨fun s h => reachable_pending_previewing h, ?_, ?_, ?_⟩
  · intro s sid c r h1 h2
    simp [executeOperation, h1, h2]
  · intro s sid r h
    cases r <;> simp [cancelOperation, h]
  · intro s sid c e h
    simp [previewOperation, h]

/-- C2: with a live session, `cancelOperation` clears the pending
command and the notice, puts the re-fetched committed view (the fetch
result itself, not a cached value) on screen and returns to `ready`;
a failed re-fetch is swallowed, leaving the view as-is with no
secondary error; and after any number of previews with no commit, a
cancel whose re-fetch returns `v` leaves the view exactly `v`, the
fresh `getRenderedView` result. -/
theorem C2_cancelOperation_restores (s : HookState) (sid v e : String)
    (h : s.sessionId = some sid) :
    ((cancelOperation s (Except.ok v)).pendingCommand = none ∧
     (cancelOperation s (Except.ok v)).error = none ∧
     (cancelOperation s (Except.ok v)).svg = v ∧
     (cancelOperation s (Except.ok v)).state = AppState.ready) ∧
    ((cancelOperation s (Except.error e)).pendingCommand = none ∧
     (cancelOperation s (Except.error e)).error = none ∧
     (cancelOperation s (Except.error e)).svg = s.svg ∧
     (cancelOperation s (Except.error e)).state = AppState.ready) ∧
    (∀ previews : List (OperationCommand × Except String OperationResult),
      (cancelOperation (applyPreviews s previews) (Except.ok v)).svg = v) := by
  refine ⟨by simp [cancelOperation, h], by simp [cancelOperation, h], ?_⟩
  intro previews
  have hs : (applyPreviews s previews).sessionId = some sid := by
    rw [applyPreviews_sessionId]
    exact h
  simp [cancelOperation, hs]

/-- C2 witness: the cancel properties at the concrete post-upload
state. -/
theorem C2_cancelOperation_restores_witness :
    ((cancelOperation readyState (Except.ok "fresh")).pendingCommand = none ∧
     (cancelOperation readyState (Except.ok "fresh")).error = none ∧
     (cancelOperation readyState (Except.ok "fresh")).svg = "fresh" ∧
     (cancelOperation readyState (Except.ok "fresh")).state = AppState.ready) ∧
    ((cancelOperation readyState (Except.error "net down")).pendingCommand = none ∧
     (cancelOperation readyState (Except.error "net down")).error = none ∧
     (cancelOperation readyState (Except.error "net down")).svg = readyState.svg ∧
     (cancelOperation readyState (Except.error "net down")).state = AppState.ready) ∧
    (∀ previews : List (OperationCommand × Except String OperationResult),
      (cancelOperation (applyPreviews readyState previews) (Except.ok "fresh")).svg
        = "fresh") :=
  C2_cancelOperation_restores readyState "sess-1" "fresh" "net down" rfl

/-- C3 counterexample: after a failed preview the state is `ready` but
the pending command is NOT cleared, and a subsequent `executeOperation`
would issue the commit call — refuting "the pending command is cleared,
and a subsequent call to executeOperation is a no-op that issues no
remote call". -/
theorem C3_failed_preview_counterexample :
    failedPreviewState.state = AppState.ready ∧
    failedPreviewState.pendingCommand = some demoCommand ∧
    executeOperationRemoteCalls failedPreviewState =
      [RemoteCall.commit "delete_by_color" [("color", "yellow")]] ∧
    executeOperationRemoteCalls failedPreviewState ≠ [] := by
  refine ⟨rfl, rfl, rfl, ?_⟩
  intro hc
  simp [failedPreviewState, previewOperation, readyState, uploadFile,
    executeOperationRemoteCalls] at hc

/-- C3 amended: if `previewOperation` fails, the session state returns
to `ready` but the pending command remains set (so a subsequent
`executeOperation` is not a no-op); `executeOperation` with no pending
command issues no remote call and changes no state. -/
theorem C3_failed_preview_amended :
    (∀ (s : HookState) (sid : String) (c : OperationCommand) (e : String),
        s.sessionId = some sid →
        (previewOperation s c (Except.error e)).state = AppState.ready ∧
        (previewOperation s c (Except.error e)).pendingCommand = some c ∧
        executeOperationRemoteCalls (previewOperation s c (Except.error e)) =
          [RemoteCall.commit c.operation c.params]) ∧
    (∀ (s : HookState) (r : Except String OperationResult),
        s.pendingCommand = none →
        executeOperation s r = s ∧ executeOperationRemoteCalls s = []) := by
  constructor
  · intro s sid c e h
    simp [previewOperation, executeOperationRemoteCalls, h]
  · intro s r h2
    cases h1 : s.sessionId <;>
      simp [executeOperation, executeOperationRemoteCalls, h1, h2]

/-- C4 counterexample: a failed commit from the previewing state leaves
the pending command staged — refuting "the pending command is left
cleared (the attempt is consumed)". -/
theorem C4_failed_commit_counterexample :
    (executeOperation previewingState (Except.error "commit failed")).pendingCommand
      = some demoCommand ∧
    some demoCommand ≠ (none : Option OperationCommand) := by
  exact ⟨rfl, by simp⟩

/-- C4 amended: when the remote commit fails, an error is reported, the
state returns to `ready`, the history is unchanged and no automatic
retry is issued (the invocation makes exactly one commit call) — but
the pending command remains staged rather than being consumed. -/
theorem C4_failed_commit_amended (s : HookState) (sid : String)
    (c : OperationCommand) (e : String)
    (h1 : s.sessionId = some sid) (h2 : s.pendingCommand = some c) :
    (executeOperation s (Except.error e)).pendingCommand = some c ∧
    (executeOperation s (Except.error e)).error = some e ∧
    (executeOperation s (Except.error e)).state = AppState.ready ∧
    (executeOperation s (Except.error e)).operationHistory = s.operationHistory ∧
    executeOperationRemoteCalls s = [RemoteCall.commit c.operation c.params] := by
  simp [executeOperation, executeOperationRemoteCalls, h1, h2]

/-- C4 witness: the amended failed-commit behaviour at the concrete
previewing state. -/
theorem C4_failed_commit_amended_witness :
    (executeOperation previewingState (Except.error "boom")).pendingCommand = some demoCommand ∧
    (executeOperation previewingState (Except.error "boom")).error = some "boom" ∧
    (executeOperation previewingState (Except.error "boom")).state = AppState.ready ∧
    (executeOperation previewingState (Except.error "boom")).operationHistory
      = previewingState.operationHistory ∧
    executeOperationRemoteCalls previewingState =
      [RemoteCall.commit demoCommand.operation demoCommand.params] :=
  C4_failed_commit_amended previewingState "sess-1" demoCommand "boom" rfl rfl

/-- C5: with a live session the history length grows by exactly one on
each successful commit, undo or redo, and is unchanged by any failed
commit, undo or redo; a failed undo or redo also surfaces the error and
returns the state to `ready`. -/
theorem C5_history_length (s : HookState) (sid : String)
    (h : s.sessionId = some sid) :
    (∀ (c : OperationCommand) (r : OperationResult), s.pendingCommand = some c →
        (executeOperation s (Except.ok r)).operationHistory.length
          = s.operationHistory.length + 1) ∧
    (∀ r : OperationResult,
        (undo s (Except.ok r)).operationHistory.length
          = s.operationHistory.length + 1) ∧
    (∀ r : OperationResult,
        (redo s (Except.ok r)).operationHistory.length
          = s.operationHistory.length + 1) ∧
    (∀ e : String,
        (executeOperation s (Except.error e)).operationHistory = s.operationHistory) ∧
    (∀ e : String,
        (undo s (Except.error e)).operationHistory = s.operationHistory ∧
        (undo s (Except.error e)).error = some e ∧
        (undo s (Except.error e)).state = AppState.ready) ∧
    (∀ e : String,
        (redo s (Except.error e)).operationHistory = s.operationHistory ∧
        (redo s (Except.error e)).error = some e ∧
        (redo s (Except.error e)).state = AppState.ready) := by
  refine ⟨?_, ?_, ?_, ?_, ?_, ?_⟩
  · intro c r h2
    simp [executeOperation, h, h2]
  · intro r
    simp [undo, h]
  · intro r
    simp [redo, h]
  · intro e
    cases h2 : s.pendingCommand <;> simp [executeOperation, h, h2]
  · intro e
    simp [undo, h]
  · intro e
    simp [redo, h]

/-- C5 witness: the history-length properties at the concrete
previewing state (history empty, as in the no-prior-commit undo
scenario). -/
theorem C5_history_length_witness :
    (∀ (c : OperationCommand) (r : OperationResult),
        previewingState.pendingCommand = some c →
        (executeOperation previewingState (Except.ok r)).operationHistory.length
          = previewingState.operationHistory.length + 1) ∧
    (∀ r : OperationResult,
        (undo previewingState (Except.ok r)).operationHistory.length
          = previewingState.operationHistory.length + 1) ∧
    (∀ r : OperationResult,
        (redo previewingState (Except.ok r)).operationHistory.length
          = previewingState.operationHistory.length + 1) ∧
    (∀ e : String,
        (executeOperation previewingState (Except.error e)).operationHistory
          = previewingState.operationHistory) ∧
    (∀ e : String,
        (undo previewingState (Except.error e)).operationHistory
          = previewingState.operationHistory ∧
        (undo previewingState (Except.error e)).error = some e ∧
        (undo previewingState (Except.error e)).state = AppState.ready) ∧
    (∀ e : String,
        (redo previewingState (Except.error e)).operationHistory
          = previewingState.operationHistory ∧
        (redo previewingState (Except.error e)).error = some e ∧
        (redo previewingState (Except.error e)).state = AppState.ready) :=
  C5_history_length previewingState "sess-1" rfl

/-- C6: the highlight set is duplicate-free and equals the union of the
selected parts' handles and the hover handles; a selected part's
handles are exactly its anchor (`text_handle`) plus its linked handles
as found by exact-name lookup; a selected name absent from the part
index contributes no handles; hovering an absent name contributes no
handles (and raises no error, the handler being total); hovering a
present part overwrites the hover handles with exactly its anchor plus
linked handles. -/
theorem C6_highlight_composition (sel hover : List String) (parts : List PartInfo) :
    (highlightedHandles sel hover parts).Nodup ∧
    (∀ x, x ∈ highlightedHandles sel hover parts ↔
        x ∈ selectedHandles sel parts ∨ x ∈ hover) ∧
    (∀ x, x ∈ selectedHandles sel parts ↔
        ∃ n ∈ sel, ∃ p, findPart parts n = some p ∧ x ∈ partHandles p) ∧
    (∀ n, findPart parts n = none →
        selectedHandles (sel ++ [n]) parts = selectedHandles sel parts) ∧
    (∀ n, findPart parts n = none → handleHoverPart parts hover n = hover) ∧
    (∀ n p, findPart parts n = some p →
        handleHoverPart parts hover n = partHandles p) := by
  refine ⟨nodup_dedupe _, ?_, fun x => mem_selectedHandles sel parts x, ?_, ?_, ?_⟩
  · intro x
    rw [highlightedHandles, mem_dedupe, List.mem_append]
  · intro n hn
    rw [selectedHandles_eq_bind, selectedHandles_eq_bind]
    simp [hn]
  · intro n hn
    simp [handleHoverPart, hn]
  · intro n p hp
    simp only [handleHoverPart, hp]
    cases hl : p.linked_handles <;> simp [partHandles, hl]

/-- C7 counterexample: when the upload call succeeds but the initial
view fetch fails, the hook transitions to `error` with the session
identifier already set — refuting "the session identifier is never set,
so no partial session exists". -/
theorem C7_upload_failure_counterexample :
    (uploadFile initState (Except.ok demoInfo) (Except.error "view fetch failed")).state
      = AppState.error ∧
    (uploadFile initState (Except.ok demoInfo) (Except.error "view fetch failed")).sessionId
      = some "sess-1" ∧
    (some "sess-1" : Option String) ≠ none := by
  exact ⟨rfl, rfl, by simp⟩

/-- C7 amended: when the upload call itself fails the session
identifier is never set and the hook transitions to `error` with a
recorded message; but when the upload succeeds and the initial view
fetch fails, the hook transitions to `error` with the session
identifier already set to the new session — a partial session does
exist locally in that case. -/
theorem C7_upload_failure_amended :
    (∀ (s : HookState) (e : String) (p : Except String String),
        (uploadFile s (Except.error e) p).state = AppState.error ∧
        (uploadFile s (Except.error e) p).error = some e ∧
        (uploadFile s (Except.error e) p).sessionId = s.sessionId) ∧
    (∀ (s : HookState) (info : DxfInfo) (e : String),
        (uploadFile s (Except.ok info) (Except.error e)).state = AppState.error ∧
        (uploadFile s (Except.ok info) (Except.error e)).error = some e ∧
        (uploadFile s (Except.ok info) (Except.error e)).sessionId
          = some info.session_id) := by
  constructor
  · intro s e p
    simp [uploadFile]
  · intro s info e
    simp [uploadFile]

/-- C8 counterexample: `reset` leaves the original (pre-edit) rendered
view in place — refuting "unconditionally clears all local session
state — session identifier, document info, parts, views, pending
command, history, and error". -/
theorem C8_reset_counterexample :
    (reset readyState (Except.ok ())).originalSvg = "svg-0" ∧
    (reset readyState (Except.ok ())).originalSvg ≠ "" := by
  exact ⟨rfl, by decide⟩

/-- C8 amended: `reset` is valid from any state and, whatever the
outcome of the best-effort remote release, unconditionally clears the
session identifier, document info, parts, current view, pending
command, history and error and transitions to `initial`; the original
(pre-edit) view is the one piece of local session state it does not
clear. -/
theorem C8_reset_amended :
    ∀ (s : HookState) (deleteRes : Except String Unit),
      (reset s deleteRes).sessionId = none ∧
      (reset s deleteRes).dxfInfo = none ∧
      (reset s deleteRes).parts = [] ∧
      (reset s deleteRes).svg = "" ∧
      (reset s deleteRes).pendingCommand = none ∧
      (reset s deleteRes).operationHistory = [] ∧
      (reset s deleteRes).error = none ∧
      (reset s deleteRes).state = AppState.initial ∧
      (reset s deleteRes).originalSvg = s.originalSvg := by
  intro s d
  simp [reset]

/-- C9: toggling the same part name twice in succession returns the
selection to its original membership. -/
theorem C9_toggle_twice (s : List String) (n x : String) :
    x ∈ handleTogglePartSelection (handleTogglePartSelection s n) n ↔ x ∈ s := by
  by_cases hn : n ∈ s
  · have h1 : handleTogglePartSelection s n = s.filter (fun p => p != n) := by
      simp [handleTogglePartSelection, hn]
    have h2 : n ∉ s.filter (fun p => p != n) := by
      simp [List.mem_filter]
    rw [h1, handleTogglePartSelection, if_neg h2]
    by_cases hx : x = n
    · subst hx
      simp [List.mem_append, hn]
    · simp [List.mem_append, List.mem_filter, hx]
  · have h1 : handleTogglePartSelection s n = s ++ [n] := by
      simp [handleTogglePartSelection, hn]
    have h2 : n ∈ s ++ [n] := by simp
    rw [h1, handleTogglePartSelection, if_pos h2]
    by_cases hx : x = n
    · subst hx
      simp [List.mem_filter, hn]
    · simp [List.mem_filter, List.mem_append, hx]

/-- C10: when a successful undo or redo response carries no rendered
view, the visible view becomes the empty string; `executeOperation` in
the same situation leaves the visible view unchanged. -/
theorem C10_missing_preview_svg (s : HookState) (sid : String)
    (r : OperationResult) (h : s.sessionId = some sid)
    (hr : r.preview_svg = none) :
    (undo s (Except.ok r)).svg = "" ∧
    (redo s (Except.ok r)).svg = "" ∧
    (∀ c, s.pendingCommand = some c →
        (executeOperation s (Except.ok r)).svg = s.svg) := by
  refine ⟨?_, ?_, ?_⟩
  · simp [undo, h, jsOr, hr]
  · simp [redo, h, jsOr, hr]
  · intro c h2
    simp [executeOperation, h, h2, svgTruthy, hr]

/-- A successful operation result whose optional rendered view is
absent. -/
def demoNoSvgResult : OperationResult :=
  { success := true, affected_count := 1, message := "ok", preview_svg := none }

/-- C10 witness: the view-replacement behaviour at the concrete
previewing state with a result that has no rendered view. -/
theorem C10_missing_preview_svg_witness :
    (undo previewingState (Except.ok demoNoSvgResult)).svg = "" ∧
    (redo previewingState (Except.ok demoNoSvgResult)).svg = "" ∧
    (∀ c, previewingState.pendingCommand = some c →
        (executeOperation previewingState (Except.ok demoNoSvgResult)).svg
          = previewingState.svg) :=
  C10_missing_preview_svg previewingState "sess-1" demoNoSvgResult rfl rfl

end DxfEditor
